import Mathlib

set_option linter.unusedVariables false
set_option linter.unnecessarySeqFocus false
set_option linter.unnecessarySimpa false
set_option maxRecDepth 40000

deriving instance DecidableEq for Except

/-
  Verification of the termai core against its specification.

  The Go source is shallowly embedded: file contents are Lean strings,
  timestamps are naturals (0 models the Go zero time), the filesystem and
  the per-path read/write record map are association lists, and the
  collaborators that the tools receive (permission service, diff engine,
  RFC3339 formatter, LSP diagnostics) are explicit parameters.
-/

namespace Termai

/-! ## Go string scanning (strings.Index, strings.LastIndex) -/

/-- Model of Go strings.Index: index of the first occurrence of sub in hay,
none when sub does not occur (Go returns -1). -/
def firstOcc (sub : List Char) : List Char → Option Nat
  | [] => if sub.isPrefixOf ([] : List Char) then some 0 else none
  | c :: t => if sub.isPrefixOf (c :: t) then some 0 else (firstOcc sub t).map (· + 1)

/-- Model of Go strings.LastIndex: index of the last occurrence of sub in hay. -/
def lastOcc (sub : List Char) : List Char → Option Nat
  | [] => if sub.isPrefixOf ([] : List Char) then some 0 else none
  | c :: t =>
    match lastOcc sub t with
    | some i => some (i + 1)
    | none => if sub.isPrefixOf (c :: t) then some 0 else none

/-- Number of positions at which sub occurs in hay (overlaps counted). -/
def occCount (sub : List Char) : List Char → Nat
  | [] => if sub.isPrefixOf ([] : List Char) then 1 else 0
  | c :: t => (if sub.isPrefixOf (c :: t) then 1 else 0) + occCount sub t

/-- Whether sub occurs somewhere in s (model of strings.Contains). -/
def goContains (s sub : String) : Bool := (firstOcc sub.data s.data).isSome

/-- The content of s with the length len segment at index i replaced by repl,
modelling the Go slice expression old[:i] + repl + old[i+len:]. -/
def strReplaceAt (s : String) (i len : Nat) (repl : String) : String :=
  String.mk (s.data.take i ++ repl.data ++ s.data.drop (i + len))

/-! ## Filesystem state and the per-path file-record map

Times are naturals; 0 models the Go zero `time.Time` (`IsZero`). The
association lists model `os` filesystem state and the package-level
`fileRecords` map of the tools package. -/

structure FileEntry where
  content : String
  mtime : Nat
  isDir : Bool
deriving DecidableEq, Repr

/-- One entry of the `fileRecords` map: last read and last write times. -/
structure FileRecord where
  readTime : Nat
  writeTime : Nat
deriving DecidableEq, Repr

/-- The state a mutating tool run reads and writes: the filesystem, the
file-record map, and the current clock value (`time.Now()`), which is
positive for any real clock. -/
structure ToolState where
  files : List (String × FileEntry)
  records : List (String × FileRecord)
  now : Nat
deriving DecidableEq, Repr

/-- Update an association list at a key (insert if absent). -/
def setAssoc {α : Type} (l : List (String × α)) (k : String) (v : α) : List (String × α) :=
  match l with
  | [] => [(k, v)]
  | (k', v') :: t => if k' = k then (k, v) :: t else (k', v') :: setAssoc t k v

/-- Model of `getLastReadTime`: the recorded read time, zero when the path
has no record. -/
def getLastReadTime (st : ToolState) (path : String) : Nat :=
  match List.lookup path st.records with
  | some r => r.readTime
  | none => 0

/-- The state after a successful mutating write of a path: `os.WriteFile`
stamps the file with the current time, then `recordFileWrite` and
`recordFileRead` record the write and read times (both at the current
clock; in the source the read is sampled immediately after the write). -/
def writeFileState (st : ToolState) (path content : String) : ToolState :=
  { st with
    files := setAssoc st.files path { content := content, mtime := st.now, isDir := false }
    records := setAssoc st.records path { readTime := st.now, writeTime := st.now } }

/-! ## The edit tool content operations

The diff engine `git.GenerateGitDiffWithStats` is not part of the core
sources; per the spec every mutating run generates a unified diff and
addition/removal counters, so it is a total function parameter
`genDiff path old new = (diff, additions, removals)` (the source passes the
path with the working-directory part removed, which the opaque parameter
absorbs). The RFC3339 formatter `time.Format` is likewise a parameter
`fmt`. The boolean `perm` is the reply of the synchronous
`permissions.Request` call of the run. -/

inductive ToolOutcome where
  | ok (text : String) (additions removals : Nat)
  | err (msg : String)
deriving DecidableEq, Repr

/-- Model of `editTool.replaceContent`. -/
def replaceContent (genDiff : String → String → String → String × Nat × Nat)
    (fmt : Nat → String) (st : ToolState) (perm : Bool)
    (sessionID messageID filePath oldString newString : String) :
    ToolOutcome × ToolState :=
  match List.lookup filePath st.files with
  | none => (ToolOutcome.err ("file not found: " ++ filePath), st)
  | some fi =>
    if fi.isDir then
      (ToolOutcome.err ("path is a directory, not a file: " ++ filePath), st)
    else if getLastReadTime st filePath = 0 then
      (ToolOutcome.err "you must read the file before editing it. Use the View tool first", st)
    else if getLastReadTime st filePath < fi.mtime then
      (ToolOutcome.err ("file " ++ filePath ++ " has been modified since it was last read (mod time: "
          ++ fmt fi.mtime ++ ", last read: " ++ fmt (getLastReadTime st filePath) ++ ")"), st)
    else
      match firstOcc oldString.data fi.content.data with
      | none =>
        (ToolOutcome.err "old_string not found in file. Make sure it matches exactly, including whitespace and line breaks", st)
      | some index =>
        if lastOcc oldString.data fi.content.data ≠ some index then
          (ToolOutcome.err "old_string appears multiple times in the file. Please provide more context to ensure a unique match", st)
        else
          let newContent := strReplaceAt fi.content index oldString.data.length newString
          if sessionID = "" ∨ messageID = "" then
            (ToolOutcome.err "session ID and message ID are required for creating a new file", st)
          else
            let d := genDiff filePath fi.content newContent
            if perm = false then
              (ToolOutcome.err "permission denied", st)
            else
              (ToolOutcome.ok ("Content replaced in file: " ++ filePath) d.2.1 d.2.2,
                writeFileState st filePath newContent)

/-- Model of `editTool.deleteContent`. -/
def deleteContent (genDiff : String → String → String → String × Nat × Nat)
    (fmt : Nat → String) (st : ToolState) (perm : Bool)
    (sessionID messageID filePath oldString : String) :
    ToolOutcome × ToolState :=
  match List.lookup filePath st.files with
  | none => (ToolOutcome.err ("file not found: " ++ filePath), st)
  | some fi =>
    if fi.isDir then
      (ToolOutcome.err ("path is a directory, not a file: " ++ filePath), st)
    else if getLastReadTime st filePath = 0 then
      (ToolOutcome.err "you must read the file before editing it. Use the View tool first", st)
    else if getLastReadTime st filePath < fi.mtime then
      (ToolOutcome.err ("file " ++ filePath ++ " has been modified since it was last read (mod time: "
          ++ fmt fi.mtime ++ ", last read: " ++ fmt (getLastReadTime st filePath) ++ ")"), st)
    else
      match firstOcc oldString.data fi.content.data with
      | none =>
        (ToolOutcome.err "old_string not found in file. Make sure it matches exactly, including whitespace and line breaks", st)
      | some index =>
        if lastOcc oldString.data fi.content.data ≠ some index then
          (ToolOutcome.err "old_string appears multiple times in the file. Please provide more context to ensure a unique match", st)
        else
          let newContent := strReplaceAt fi.content index oldString.data.length ""
          if sessionID = "" ∨ messageID = "" then
            (ToolOutcome.err "session ID and message ID are required for creating a new file", st)
          else
            let d := genDiff filePath fi.content newContent
            if perm = false then
              (ToolOutcome.err "permission denied", st)
            else
              (ToolOutcome.ok ("Content deleted from file: " ++ filePath) d.2.1 d.2.2,
                writeFileState st filePath newContent)

/-- Model of `editTool.createNewFile` (`os.MkdirAll` is modelled as
succeeding). -/
def createNewFile (genDiff : String → String → String → String × Nat × Nat)
    (st : ToolState) (perm : Bool)
    (sessionID messageID filePath content : String) :
    ToolOutcome × ToolState :=
  match List.lookup filePath st.files with
  | some fi =>
    if fi.isDir then
      (ToolOutcome.err ("path is a directory, not a file: " ++ filePath), st)
    else
      (ToolOutcome.err ("file already exists: " ++ filePath ++ ". Use the Replace tool to overwrite an existing file"), st)
  | none =>
    if sessionID = "" ∨ messageID = "" then
      (ToolOutcome.err "session ID and message ID are required for creating a new file", st)
    else
      let d := genDiff filePath "" content
      if perm = false then
        (ToolOutcome.err "permission denied", st)
      else
        (ToolOutcome.ok ("File created: " ++ filePath) d.2.1 d.2.2,
          writeFileState st filePath content)

/-! ## The write tool -/

/-- A tool-level response (`NewTextResponse` / `NewTextErrorResponse`). -/
structure ToolResponse where
  content : String
  isError : Bool
deriving DecidableEq, Repr

/-- Model of `writeTool.Run` after JSON decoding. The `Except.error` case is
a Go-level error return; `Except.ok` with `isError` is a tool error
response. `diag` models the LSP diagnostics block appended on success. -/
def writeToolRun (genDiff : String → String → String → String × Nat × Nat)
    (fmt : Nat → String) (diag : String → String) (st : ToolState) (perm : Bool)
    (sessionID messageID filePath content : String) :
    Except String ToolResponse × ToolState :=
  if filePath = "" then
    (Except.ok ({ content := "file_path is required", isError := true } : ToolResponse), st)
  else if content = "" then
    (Except.ok ({ content := "content is required", isError := true } : ToolResponse), st)
  else
    let proceed : String → Except String ToolResponse × ToolState := fun oldContent =>
      if sessionID = "" ∨ messageID = "" then
        (Except.error "session_id and message_id are required", st)
      else
        let _diff := genDiff filePath oldContent content
        if perm = false then
          (Except.error "permission denied", st)
        else
          let resp : ToolResponse :=
            { content := "<result>\nFile successfully written: " ++ filePath ++ "\n</result>" ++ diag filePath
              isError := false }
          (Except.ok resp, writeFileState st filePath content)
    match List.lookup filePath st.files with
    | some fi =>
      if fi.isDir then
        (Except.ok ({ content := "Path is a directory, not a file: " ++ filePath, isError := true } : ToolResponse), st)
      else if getLastReadTime st filePath < fi.mtime then
        let staleMsg : String :=
          "File " ++ filePath ++ " has been modified since it was last read.\nLast modification: "
            ++ fmt fi.mtime ++ "\nLast read: " ++ fmt (getLastReadTime st filePath)
            ++ "\n\nPlease read the file again before modifying it."
        (Except.ok ({ content := staleMsg, isError := true } : ToolResponse), st)
      else if fi.content = content then
        (Except.ok ({ content := "File " ++ filePath ++ " already contains the exact content. No changes made.", isError := true } : ToolResponse), st)
      else
        proceed fi.content
    | none => proceed ""


/-! ## Provider retry policy (`anthropicClient.shouldRetry`) -/

/-- Modelled from the spec: the constant `maxRetries` is referenced by
`shouldRetry` but defined outside the core sources; the spec fixes it:
retry up to 8 times. -/
def maxRetries : Nat := 8

/-- The shape of a transport error as `shouldRetry` inspects it:
whether `errors.As` recognises an `anthropic.Error`, its HTTP status code,
and the values of the `Retry-After` response header. -/
structure GoAPIError where
  isAPIError : Bool
  statusCode : Nat
  retryAfterValues : List String
deriving DecidableEq, Repr

/-- The longest leading run of decimal digits, with its value. -/
def digitsVal : List Char → Option (Nat × List Char)
  | [] => none
  | c :: t =>
    if c.isDigit then
      let v0 := c.toNat - 48
      match digitsVal t with
      | none => some (v0, t)
      | some (v, r) =>
        some (v0 * 10 ^ (t.length - r.length) + v, r)
    else none

/-- Model of `fmt.Sscanf(s, "%d", &x)`: skip leading blanks, read an
optional sign and at least one digit; trailing input is ignored. -/
def sscanfInt (s : String) : Option Int :=
  let cs := s.data.dropWhile (fun c => c = ' ' ∨ c = '\t')
  match cs with
  | '-' :: rest => (digitsVal rest).map (fun p => -(p.1 : Int))
  | '+' :: rest => (digitsVal rest).map (fun p => (p.1 : Int))
  | _ => (digitsVal cs).map (fun p => (p.1 : Int))

/-- Model of `anthropicClient.shouldRetry`: `none` is a fatal error,
`some ms` asks for a retry after `ms` milliseconds. The Go jitter
`int(float64(backoffMs)*0.2)` equals `backoffMs / 5` exactly for every
`backoffMs = 2000 * 2^k` with `k < maxRetries` (the float product rounds
to the exact value). -/
def shouldRetry (attempts : Nat) (e : GoAPIError) : Option Int :=
  if e.isAPIError = false then none
  else if e.statusCode ≠ 429 ∧ e.statusCode ≠ 529 then none
  else if attempts > maxRetries then none
  else
    let backoffMs : Int := 2000 * 2 ^ (attempts - 1)
    let jitterMs : Int := backoffMs / 5
    let base : Int := backoffMs + jitterMs
    match e.retryAfterValues.head? with
    | none => some base
    | some v =>
      match sscanfInt v with
      | some n => some (n * 1000)
      | none => some base

/-! ## Parallel tool dispatch (`anthropicProvider.NewMessage`)

Each tool call of an assistant message is run in its own goroutine; the
goroutine for index i writes slot i of a pre-sized results slice. The
nondeterministic completion order is an explicit schedule: the list of
slot indices in the order in which the tasks finished. -/

structure ToolCallRec where
  id : String
  name : String
  input : String
deriving DecidableEq, Repr

structure ToolResultRec where
  toolCallID : String
  content : String
  isError : Bool
deriving DecidableEq, Repr

/-- A registered tool: its name and its `Run` (which can fail with a
Go-level error, the first component of the Go return pair). -/
structure RegisteredTool where
  name : String
  run : String → Except String ToolResponse

/-- The body of one dispatch goroutine: find the tool by name
(first match wins, as the Go loop breaks), run it, and synthesize the
`message.ToolResult`. A missing tool yields the not-found text with the
`isError` flag left at its zero value. -/
def toolTask (toolList : List RegisteredTool) (tc : ToolCallRec) : ToolResultRec :=
  match toolList.find? (fun t => t.name == tc.name) with
  | some t =>
    match t.run tc.input with
    | Except.error e =>
      { toolCallID := tc.id, content := "error running tool: " ++ e, isError := true }
    | Except.ok r =>
      { toolCallID := tc.id, content := r.content, isError := r.isError }
  | none =>
    { toolCallID := tc.id, content := "tool not found: " ++ tc.name, isError := false }

/-- Write slot i of the results slice (no-op beyond the slice length,
which a valid schedule never does). -/
def setSlot {α : Type} : List (Option α) → Nat → α → List (Option α)
  | [], _, _ => []
  | _ :: t, 0, v => some v :: t
  | h :: t, n + 1, v => h :: setSlot t n v

def getSlot {α : Type} : List (Option α) → Nat → Option α
  | [], _ => none
  | h :: _, 0 => h
  | _ :: t, n + 1 => getSlot t n

/-- Run the dispatched tasks in the order given by the schedule: task i
writes slot i with its own result, whenever it finishes. -/
def runSchedule (f : Nat → ToolResultRec) : List Nat → List (Option ToolResultRec) → List (Option ToolResultRec)
  | [], slots => slots
  | i :: rest, slots => runSchedule f rest (setSlot slots i (f i))

/-- The zero value of `message.ToolResult` (Go slice elements start as
zero values). -/
def zeroToolResult : ToolResultRec := { toolCallID := "", content := "", isError := false }

def collectSlots : List (Option ToolResultRec) → List ToolResultRec
  | [] => []
  | o :: t => o.getD zeroToolResult :: collectSlots t

/-- The results slice after all goroutines completed in schedule order. -/
def dispatchToolCalls (toolList : List RegisteredTool) (toolCalls : List ToolCallRec)
    (schedule : List Nat) : List ToolResultRec :=
  collectSlots (runSchedule (fun i => toolTask toolList (toolCalls.getD i { id := "", name := "", input := "" }))
    schedule (List.replicate toolCalls.length none))

inductive Role where
  | user | assistant | tool | system
deriving DecidableEq, Repr

/-- An abstract stored message as the provider sees it. -/
structure GoMessage where
  role : Role
  content : String
  toolCalls : List ToolCallRec
  toolResults : List ToolResultRec
deriving DecidableEq, Repr

/-- The messages persisted by the tool-dispatch step of the agent loop:
when there are tool calls, exactly one tool message holding the collected
results (a single `Messages.Create` after `wg.Wait()`). -/
def persistedToolMessages (toolList : List RegisteredTool) (toolCalls : List ToolCallRec)
    (schedule : List Nat) : List GoMessage :=
  if toolCalls.isEmpty then []
  else
    [{ role := Role.tool, content := "",
       toolCalls := [],
       toolResults := dispatchToolCalls toolList toolCalls schedule }]

/-! ## History translation with prompt-cache hints
(`anthropicClient.convertMessages`) -/

/-- A vendor content block. Text blocks carry the ephemeral cache-control
marking as a boolean. -/
inductive ABlock where
  | text (s : String) (cached : Bool)
  | toolUse (id name input : String)
  | toolResult (toolCallID content : String) (isError : Bool)
deriving DecidableEq, Repr

structure AMessage where
  role : Role
  blocks : List ABlock
deriving DecidableEq, Repr

/-- The vendor blocks of one assistant message and the updated
`cachedBlocks` counter: a marked text block when the content is nonempty
(marking while the counter is below 2 and caching is enabled), then one
tool-use block per tool call whose input unmarshals. -/
def assistantBlocks (jsonOk : String → Bool) (disableCache : Bool) (c : Nat) (m : GoMessage) :
    List ABlock × Nat :=
  let tuBlocks := (m.toolCalls.filter (fun tc => jsonOk tc.input)).map
    (fun tc => ABlock.toolUse tc.id tc.name tc.input)
  if m.content = "" then (tuBlocks, c)
  else
    (ABlock.text m.content (decide (c < 2 ∧ disableCache = false)) :: tuBlocks,
     if c < 2 ∧ disableCache = false then c + 1 else c)

/-- Model of `anthropicClient.convertMessages`; `c` is the running
`cachedBlocks` counter (0 at the entry point), `jsonOk` tells whether
`json.Unmarshal` accepts a tool-call input (failing calls are skipped).
An assistant message whose block list is empty is skipped. -/
def convertMessages (jsonOk : String → Bool) (disableCache : Bool) :
    Nat → List GoMessage → List AMessage
  | _, [] => []
  | c, m :: rest =>
    match m.role with
    | Role.user =>
      let mark := c < 2 ∧ disableCache = false
      let c' := if c < 2 ∧ disableCache = false then c + 1 else c
      { role := Role.user, blocks := [ABlock.text m.content (decide mark)] }
        :: convertMessages jsonOk disableCache c' rest
    | Role.assistant =>
      let bc := assistantBlocks jsonOk disableCache c m
      if bc.1.isEmpty then convertMessages jsonOk disableCache bc.2 rest
      else { role := Role.assistant, blocks := bc.1 } :: convertMessages jsonOk disableCache bc.2 rest
    | Role.tool =>
      { role := Role.user,
        blocks := m.toolResults.map (fun tr => ABlock.toolResult tr.toolCallID tr.content tr.isError) }
        :: convertMessages jsonOk disableCache c rest
    | Role.system => convertMessages jsonOk disableCache c rest

/-- The cache marking of a text block; nothing for other block kinds. -/
def textFlag : ABlock → Option Bool
  | ABlock.text _ cached => some cached
  | _ => none

/-- The cache markings of the user/assistant text blocks of a converted
history, in order. -/
def cachedFlags (ms : List AMessage) : List Bool :=
  (ms.map (fun m => m.blocks.filterMap textFlag)).flatten

/-- The number of text blocks `convertMessages` emits for a history:
one per user message and one per assistant message with nonempty content. -/
def eligibleTextCount : List GoMessage → Nat
  | [] => 0
  | m :: rest =>
    (match m.role with
     | Role.user => 1
     | Role.assistant => if m.content ≠ "" then 1 else 0
     | _ => 0) + eligibleTextCount rest

/-- The marking pattern the conversion produces for k text blocks when the
counter starts at c: mark while the counter is below 2. -/
def expectedFlags : Nat → Nat → List Bool
  | _, 0 => []
  | c, k + 1 => decide (c < 2) :: expectedFlags (if c < 2 then c + 1 else c) k

/-! ## Title side-job (`anthropicProvider.NewMessage` /
`generateSessionTitle`) -/

/-- The `SupportedModels` table restricted to what the title job reads:
model id to API model name. A missing key yields the Go zero value "". -/
def supportedModelsAPI : List (String × String) :=
  [("claude-3.5-sonnet", "claude-3-5-sonnet-latest"),
   ("claude-3-haiku", "claude-3-haiku-latest"),
   ("claude-3.7-sonnet", "claude-3-7-sonnet-latest")]

/-- The configured model ids (`viper` keys `models.big` / `models.little`). -/
structure ModelsConfig where
  modelsBig : String
  modelsLittle : String
deriving DecidableEq, Repr

/-- The request issued by one title-generation task. -/
structure TitleRequest where
  apiModel : String
  maxTokens : Nat
  systemPrompt : String
  userMessage : String
  timeoutSeconds : Nat
deriving DecidableEq, Repr

/-- The system prompt of `generateSessionTitle`. -/
def titleSystemMessage : String :=
  "You will generate a short title based on the first message a user begins a conversation with\n- ensure it is not more than 50 characters long\n- the title should be a summary of the user\x27s message\n- do not use quotes or colons\n- the entire text you return will be used as the title"

/-- The title side-job that `NewMessage` launches: a detached task with a
30-second timeout, only when the session has no messages yet; it calls the
provider with the title prompt on the model configured as `models.big`. -/
def maybeTitleJob (cfg : ModelsConfig) (messages : List GoMessage) (content : String) :
    Option TitleRequest :=
  if messages.isEmpty then
    some { apiModel := (List.lookup cfg.modelsBig supportedModelsAPI).getD ""
           maxTokens := 5000
           systemPrompt := titleSystemMessage
           userMessage := content
           timeoutSeconds := 30 }
  else none

structure Session where
  id : String
  title : String
deriving DecidableEq, Repr

/-- What the detached task does with the provider outcome: a failure is
logged and otherwise ignored, leaving the session untouched; a success sets
the title to the concatenation of the text blocks of the response. -/
def applyTitleOutcome (sess : Session) (result : Except String (List String)) : Session :=
  match result with
  | Except.error _ => sess
  | Except.ok blocks => { sess with title := blocks.foldl (fun a b => a ++ b) "" }

/-! # Theorems -/

theorem firstOcc_none_iff (sub : List Char) :
    ∀ hay : List Char, firstOcc sub hay = none ↔ occCount sub hay = 0 := by
  intro hay
  induction hay with
  | nil =>
    cases h : sub.isPrefixOf ([] : List Char) <;> simp [firstOcc, occCount, h]
  | cons c t ih =>
    cases h : sub.isPrefixOf (c :: t) <;>
      simp [firstOcc, occCount, h, Option.map_eq_none', ih]

theorem lastOcc_none_iff (sub : List Char) :
    ∀ hay : List Char, lastOcc sub hay = none ↔ occCount sub hay = 0 := by
  intro hay
  induction hay with
  | nil =>
    cases h : sub.isPrefixOf ([] : List Char) <;> simp [lastOcc, occCount, h]
  | cons c t ih =>
    cases hl : lastOcc sub t with
    | some i =>
      have ht : occCount sub t ≠ 0 := fun h0 => by simp [ih.mpr h0] at hl
      cases h : sub.isPrefixOf (c :: t) <;> simp [lastOcc, occCount, h, hl] <;> omega
    | none =>
      have h0 : occCount sub t = 0 := ih.mp hl
      cases h : sub.isPrefixOf (c :: t) <;> simp [lastOcc, occCount, h, hl, h0]

theorem occCount_one_iff (sub : List Char) :
    ∀ hay : List Char, occCount sub hay = 1 ↔
      ∃ i, firstOcc sub hay = some i ∧ lastOcc sub hay = some i := by
  intro hay
  induction hay with
  | nil =>
    cases h : sub.isPrefixOf ([] : List Char) <;> simp [firstOcc, lastOcc, occCount, h]
  | cons c t ih =>
    cases h : sub.isPrefixOf (c :: t)
    case false =>
      cases hf : firstOcc sub t with
      | none =>
        have h0 : occCount sub t = 0 := (firstOcc_none_iff sub t).mp hf
        have hl : lastOcc sub t = none := (lastOcc_none_iff sub t).mpr h0
        simp [firstOcc, lastOcc, occCount, h, hf, hl, h0]
      | some i =>
        cases hl : lastOcc sub t with
        | none =>
          have h0 : occCount sub t = 0 := (lastOcc_none_iff sub t).mp hl
          have hfn : firstOcc sub t = none := (firstOcc_none_iff sub t).mpr h0
          simp [hfn] at hf
        | some j =>
          constructor
          · intro h1
            have h1t : occCount sub t = 1 := by simpa [occCount, h] using h1
            obtain ⟨k, hk1, hk2⟩ := ih.mp h1t
            exact ⟨k + 1, by simp [firstOcc, h, hk1], by simp [lastOcc, hk2]⟩
          · rintro ⟨k, hk1, hk2⟩
            simp [firstOcc, h, hf] at hk1
            simp [lastOcc, hl] at hk2
            have h1t : occCount sub t = 1 := ih.mpr ⟨i, hf, by rw [hl]; congr 1; omega⟩
            simp [occCount, h, h1t]
    case true =>
      cases hl : lastOcc sub t with
      | some i =>
        have ht : occCount sub t ≠ 0 := fun h0 => by
          simp [(lastOcc_none_iff sub t).mpr h0] at hl
        simp [firstOcc, lastOcc, occCount, h, hl]
        omega
      | none =>
        have h0 : occCount sub t = 0 := (lastOcc_none_iff sub t).mp hl
        simp [firstOcc, lastOcc, occCount, h, hl, h0]

theorem firstOcc_isSome_of_suffix (sub rest : List Char) (h : sub.isPrefixOf rest = true) :
    ∀ pre : List Char, (firstOcc sub (pre ++ rest)).isSome = true := by
  intro pre
  induction pre with
  | nil =>
    cases rest with
    | nil => simp [firstOcc, h]
    | cons c t => simp [firstOcc, h]
  | cons c p ih =>
    by_cases hp : sub.isPrefixOf (c :: (p ++ rest))
    · simp [firstOcc, hp]
    · simpa [firstOcc, hp] using ih

theorem data_append (a b : String) : (a ++ b).data = a.data ++ b.data := by
  cases a; cases b; rfl

/-- A string built around an explicit middle piece contains that piece. -/
theorem goContains_of_middle (a s b : String) : goContains (a ++ s ++ b) s = true := by
  have hp : s.data.isPrefixOf (s.data ++ b.data) = true := by
    induction s.data with
    | nil => simp [List.isPrefixOf]
    | cons c t ih => simp [List.isPrefixOf, ih]
  have := firstOcc_isSome_of_suffix s.data (s.data ++ b.data) hp a.data
  simpa [goContains, data_append, List.append_assoc] using this


theorem lookup_setAssoc_self {α : Type} (l : List (String × α)) (k : String) (v : α) :
    List.lookup k (setAssoc l k v) = some v := by
  induction l with
  | nil => simp [setAssoc, List.lookup]
  | cons p t ih =>
    obtain ⟨k', v'⟩ := p
    by_cases h : k' = k
    · simp [setAssoc, h, List.lookup]
    · have hne : (k == k') = false := by
        simp [Ne.symm h]
      simp [setAssoc, h, List.lookup, hne, ih]


theorem writeFileState_record (st : ToolState) (path content : String) :
    List.lookup path (writeFileState st path content).records =
      some { readTime := st.now, writeTime := st.now } := by
  simp [writeFileState, lookup_setAssoc_self]

theorem writeFileState_file (st : ToolState) (path content : String) :
    List.lookup path (writeFileState st path content).files =
      some { content := content, mtime := st.now, isDir := false } := by
  simp [writeFileState, lookup_setAssoc_self]


theorem isPrefixOf_append_self (l t : List Char) : l.isPrefixOf (l ++ t) = true := by
  induction l with
  | nil => simp [List.isPrefixOf]
  | cons c r ih => simp [List.isPrefixOf, ih]

theorem goContains_of_data (m s : String) (pre post : List Char)
    (h : m.data = pre ++ s.data ++ post) : goContains m s = true := by
  have := firstOcc_isSome_of_suffix s.data (s.data ++ post) (isPrefixOf_append_self s.data post) pre
  simpa [goContains, h, List.append_assoc] using this

theorem replaceContent_found_eq
    (genDiff : String → String → String → String × Nat × Nat) (fmt : Nat → String)
    (st : ToolState) (sessionID messageID filePath oldString newString : String)
    (fi : FileEntry) (i : Nat)
    (hfile : List.lookup filePath st.files = some fi)
    (hdir : fi.isDir = false)
    (hread : getLastReadTime st filePath ≠ 0)
    (hfresh : ¬ getLastReadTime st filePath < fi.mtime)
    (hf : firstOcc oldString.data fi.content.data = some i)
    (hl : lastOcc oldString.data fi.content.data = some i)
    (hsid : ¬ sessionID = "") (hmid : ¬ messageID = "") :
    replaceContent genDiff fmt st true sessionID messageID filePath oldString newString =
      (ToolOutcome.ok ("Content replaced in file: " ++ filePath)
        (genDiff filePath fi.content (strReplaceAt fi.content i oldString.data.length newString)).2.1
        (genDiff filePath fi.content (strReplaceAt fi.content i oldString.data.length newString)).2.2,
       writeFileState st filePath (strReplaceAt fi.content i oldString.data.length newString)) := by
  simp [replaceContent, hfile, hdir, hread, hfresh, hf, hl, hsid, hmid]

theorem replaceContent_notfound_eq
    (genDiff : String → String → String → String × Nat × Nat) (fmt : Nat → String)
    (st : ToolState) (perm : Bool) (sessionID messageID filePath oldString newString : String)
    (fi : FileEntry)
    (hfile : List.lookup filePath st.files = some fi)
    (hdir : fi.isDir = false)
    (hread : getLastReadTime st filePath ≠ 0)
    (hfresh : ¬ getLastReadTime st filePath < fi.mtime)
    (hf : firstOcc oldString.data fi.content.data = none) :
    replaceContent genDiff fmt st perm sessionID messageID filePath oldString newString =
      (ToolOutcome.err "old_string not found in file. Make sure it matches exactly, including whitespace and line breaks", st) := by
  simp [replaceContent, hfile, hdir, hread, hfresh, hf]

theorem replaceContent_multi_eq
    (genDiff : String → String → String → String × Nat × Nat) (fmt : Nat → String)
    (st : ToolState) (perm : Bool) (sessionID messageID filePath oldString newString : String)
    (fi : FileEntry) (i j : Nat)
    (hfile : List.lookup filePath st.files = some fi)
    (hdir : fi.isDir = false)
    (hread : getLastReadTime st filePath ≠ 0)
    (hfresh : ¬ getLastReadTime st filePath < fi.mtime)
    (hf : firstOcc oldString.data fi.content.data = some i)
    (hl : lastOcc oldString.data fi.content.data = some j)
    (hij : j ≠ i) :
    replaceContent genDiff fmt st perm sessionID messageID filePath oldString newString =
      (ToolOutcome.err "old_string appears multiple times in the file. Please provide more context to ensure a unique match", st) := by
  simp [replaceContent, hfile, hdir, hread, hfresh, hf, hl, hij]

theorem replaceContent_unread_eq
    (genDiff : String → String → String → String × Nat × Nat) (fmt : Nat → String)
    (st : ToolState) (perm : Bool) (sessionID messageID filePath oldString newString : String)
    (fi : FileEntry)
    (hfile : List.lookup filePath st.files = some fi)
    (hdir : fi.isDir = false)
    (hread : getLastReadTime st filePath = 0) :
    replaceContent genDiff fmt st perm sessionID messageID filePath oldString newString =
      (ToolOutcome.err "you must read the file before editing it. Use the View tool first", st) := by
  simp [replaceContent, hfile, hdir, hread]

theorem replaceContent_stale_eq
    (genDiff : String → String → String → String × Nat × Nat) (fmt : Nat → String)
    (st : ToolState) (perm : Bool) (sessionID messageID filePath oldString newString : String)
    (fi : FileEntry)
    (hfile : List.lookup filePath st.files = some fi)
    (hdir : fi.isDir = false)
    (hread : getLastReadTime st filePath ≠ 0)
    (hstale : getLastReadTime st filePath < fi.mtime) :
    replaceContent genDiff fmt st perm sessionID messageID filePath oldString newString =
      (ToolOutcome.err ("file " ++ filePath ++ " has been modified since it was last read (mod time: "
          ++ fmt fi.mtime ++ ", last read: " ++ fmt (getLastReadTime st filePath) ++ ")"), st) := by
  simp [replaceContent, hfile, hdir, hread, hstale]

theorem deleteContent_unread_eq
    (genDiff : String → String → String → String × Nat × Nat) (fmt : Nat → String)
    (st : ToolState) (perm : Bool) (sessionID messageID filePath oldString : String)
    (fi : FileEntry)
    (hfile : List.lookup filePath st.files = some fi)
    (hdir : fi.isDir = false)
    (hread : getLastReadTime st filePath = 0) :
    deleteContent genDiff fmt st perm sessionID messageID filePath oldString =
      (ToolOutcome.err "you must read the file before editing it. Use the View tool first", st) := by
  simp [deleteContent, hfile, hdir, hread]

theorem deleteContent_stale_eq
    (genDiff : String → String → String → String × Nat × Nat) (fmt : Nat → String)
    (st : ToolState) (perm : Bool) (sessionID messageID filePath oldString : String)
    (fi : FileEntry)
    (hfile : List.lookup filePath st.files = some fi)
    (hdir : fi.isDir = false)
    (hread : getLastReadTime st filePath ≠ 0)
    (hstale : getLastReadTime st filePath < fi.mtime) :
    deleteContent genDiff fmt st perm sessionID messageID filePath oldString =
      (ToolOutcome.err ("file " ++ filePath ++ " has been modified since it was last read (mod time: "
          ++ fmt fi.mtime ++ ", last read: " ++ fmt (getLastReadTime st filePath) ++ ")"), st) := by
  simp [deleteContent, hfile, hdir, hread, hstale]

theorem writeToolRun_stale_eq
    (genDiff : String → String → String → String × Nat × Nat) (fmt : Nat → String)
    (diag : String → String) (st : ToolState) (perm : Bool)
    (sessionID messageID filePath content : String) (fi : FileEntry)
    (hpath : ¬ filePath = "") (hcontent : ¬ content = "")
    (hfile : List.lookup filePath st.files = some fi)
    (hdir : fi.isDir = false)
    (hstale : getLastReadTime st filePath < fi.mtime) :
    writeToolRun genDiff fmt diag st perm sessionID messageID filePath content =
      (Except.ok ⟨"File " ++ filePath ++ " has been modified since it was last read.\nLast modification: "
          ++ fmt fi.mtime ++ "\nLast read: " ++ fmt (getLastReadTime st filePath)
          ++ "\n\nPlease read the file again before modifying it.", true⟩, st) := by
  simp [writeToolRun, hpath, hcontent, hfile, hdir, hstale]

theorem writeToolRun_noop_eq
    (genDiff : String → String → String → String × Nat × Nat) (fmt : Nat → String)
    (diag : String → String) (st : ToolState) (perm : Bool)
    (sessionID messageID filePath content : String) (fi : FileEntry)
    (hpath : ¬ filePath = "") (hcontent : ¬ content = "")
    (hfile : List.lookup filePath st.files = some fi)
    (hdir : fi.isDir = false)
    (hfresh : ¬ getLastReadTime st filePath < fi.mtime)
    (hsame : fi.content = content) :
    writeToolRun genDiff fmt diag st perm sessionID messageID filePath content =
      (Except.ok { content := "File " ++ filePath ++ " already contains the exact content. No changes made.", isError := true }, st) := by
  simp [writeToolRun, hpath, hcontent, hfile, hdir, hfresh, hsame]

theorem replaceContent_ok_state
    (genDiff : String → String → String → String × Nat × Nat) (fmt : Nat → String)
    (st : ToolState) (perm : Bool) (sessionID messageID filePath oldString newString t : String)
    (a r : Nat)
    (h : (replaceContent genDiff fmt st perm sessionID messageID filePath oldString newString).1
        = ToolOutcome.ok t a r) :
    ∃ nc, (replaceContent genDiff fmt st perm sessionID messageID filePath oldString newString).2
        = writeFileState st filePath nc := by
  cases hfile : List.lookup filePath st.files with
  | none => simp [replaceContent, hfile] at h
  | some fi =>
    by_cases hdir : fi.isDir = true
    · simp [replaceContent, hfile, hdir] at h
    · by_cases hread : getLastReadTime st filePath = 0
      · simp [replaceContent, hfile, hdir, hread] at h
      · by_cases hstale : getLastReadTime st filePath < fi.mtime
        · simp [replaceContent, hfile, hdir, hread, hstale] at h
        · cases hf : firstOcc oldString.data fi.content.data with
          | none => simp [replaceContent, hfile, hdir, hread, hstale, hf] at h
          | some i =>
            by_cases hl : lastOcc oldString.data fi.content.data = some i
            · by_cases hsm : sessionID = "" ∨ messageID = ""
              · simp [replaceContent, hfile, hdir, hread, hstale, hf, hl, hsm] at h
              · by_cases hperm : perm = false
                · simp [replaceContent, hfile, hdir, hread, hstale, hf, hl, hsm, hperm] at h
                · exact ⟨strReplaceAt fi.content i oldString.data.length newString,
                    by simp [replaceContent, hfile, hdir, hread, hstale, hf, hl, hsm, hperm]⟩
            · simp [replaceContent, hfile, hdir, hread, hstale, hf, hl] at h

theorem deleteContent_ok_state
    (genDiff : String → String → String → String × Nat × Nat) (fmt : Nat → String)
    (st : ToolState) (perm : Bool) (sessionID messageID filePath oldString t : String)
    (a r : Nat)
    (h : (deleteContent genDiff fmt st perm sessionID messageID filePath oldString).1
        = ToolOutcome.ok t a r) :
    ∃ nc, (deleteContent genDiff fmt st perm sessionID messageID filePath oldString).2
        = writeFileState st filePath nc := by
  cases hfile : List.lookup filePath st.files with
  | none => simp [deleteContent, hfile] at h
  | some fi =>
    by_cases hdir : fi.isDir = true
    · simp [deleteContent, hfile, hdir] at h
    · by_cases hread : getLastReadTime st filePath = 0
      · simp [deleteContent, hfile, hdir, hread] at h
      · by_cases hstale : getLastReadTime st filePath < fi.mtime
        · simp [deleteContent, hfile, hdir, hread, hstale] at h
        · cases hf : firstOcc oldString.data fi.content.data with
          | none => simp [deleteContent, hfile, hdir, hread, hstale, hf] at h
          | some i =>
            by_cases hl : lastOcc oldString.data fi.content.data = some i
            · by_cases hsm : sessionID = "" ∨ messageID = ""
              · simp [deleteContent, hfile, hdir, hread, hstale, hf, hl, hsm] at h
              · by_cases hperm : perm = false
                · simp [deleteContent, hfile, hdir, hread, hstale, hf, hl, hsm, hperm] at h
                · exact ⟨strReplaceAt fi.content i oldString.data.length "",
                    by simp [deleteContent, hfile, hdir, hread, hstale, hf, hl, hsm, hperm]⟩
            · simp [deleteContent, hfile, hdir, hread, hstale, hf, hl] at h

theorem createNewFile_ok_state
    (genDiff : String → String → String → String × Nat × Nat)
    (st : ToolState) (perm : Bool) (sessionID messageID filePath content t : String)
    (a r : Nat)
    (h : (createNewFile genDiff st perm sessionID messageID filePath content).1
        = ToolOutcome.ok t a r) :
    ∃ nc, (createNewFile genDiff st perm sessionID messageID filePath content).2
        = writeFileState st filePath nc := by
  cases hfile : List.lookup filePath st.files with
  | some fi =>
    by_cases hdir : fi.isDir = true
    · simp [createNewFile, hfile, hdir] at h
    · simp [createNewFile, hfile, hdir] at h
  | none =>
    by_cases hsm : sessionID = "" ∨ messageID = ""
    · simp [createNewFile, hfile, hsm] at h
    · by_cases hperm : perm = false
      · simp [createNewFile, hfile, hsm, hperm] at h
      · exact ⟨content, by simp [createNewFile, hfile, hsm, hperm]⟩

theorem writeToolRun_ok_state
    (genDiff : String → String → String → String × Nat × Nat) (fmt : Nat → String)
    (diag : String → String) (st : ToolState) (perm : Bool)
    (sessionID messageID filePath content : String) (resp : ToolResponse)
    (h : (writeToolRun genDiff fmt diag st perm sessionID messageID filePath content).1
        = Except.ok resp)
    (hok : resp.isError = false) :
    (writeToolRun genDiff fmt diag st perm sessionID messageID filePath content).2
        = writeFileState st filePath content := by
  by_cases hpath : filePath = ""
  · simp [writeToolRun, hpath] at h
    rw [← h] at hok
    simp at hok
  · by_cases hcontent : content = ""
    · simp [writeToolRun, hpath, hcontent] at h
      rw [← h] at hok
      simp at hok
    · by_cases hsm : sessionID = "" ∨ messageID = ""
      · cases hfile : List.lookup filePath st.files with
        | none => simp [writeToolRun, hpath, hcontent, hfile, hsm] at h
        | some fi =>
          by_cases hdir : fi.isDir = true
          · simp [writeToolRun, hpath, hcontent, hfile, hdir] at h
            rw [← h] at hok
            simp at hok
          · by_cases hstale : getLastReadTime st filePath < fi.mtime
            · simp [writeToolRun, hpath, hcontent, hfile, hdir, hstale] at h
              rw [← h] at hok
              simp at hok
            · by_cases hsame : fi.content = content
              · simp [writeToolRun, hpath, hcontent, hfile, hdir, hstale, hsame] at h
                rw [← h] at hok
                simp at hok
              · simp [writeToolRun, hpath, hcontent, hfile, hdir, hstale, hsame, hsm] at h
      · by_cases hperm : perm = false
        · cases hfile : List.lookup filePath st.files with
          | none => simp [writeToolRun, hpath, hcontent, hfile, hsm, hperm] at h
          | some fi =>
            by_cases hdir : fi.isDir = true
            · simp [writeToolRun, hpath, hcontent, hfile, hdir] at h
              rw [← h] at hok
              simp at hok
            · by_cases hstale : getLastReadTime st filePath < fi.mtime
              · simp [writeToolRun, hpath, hcontent, hfile, hdir, hstale] at h
                rw [← h] at hok
                simp at hok
              · by_cases hsame : fi.content = content
                · simp [writeToolRun, hpath, hcontent, hfile, hdir, hstale, hsame] at h
                  rw [← h] at hok
                  simp at hok
                · simp [writeToolRun, hpath, hcontent, hfile, hdir, hstale, hsame, hsm, hperm] at h
        · cases hfile : List.lookup filePath st.files with
          | none => simp [writeToolRun, hpath, hcontent, hfile, hsm, hperm]
          | some fi =>
            by_cases hdir : fi.isDir = true
            · simp [writeToolRun, hpath, hcontent, hfile, hdir] at h
              rw [← h] at hok
              simp at hok
            · by_cases hstale : getLastReadTime st filePath < fi.mtime
              · simp [writeToolRun, hpath, hcontent, hfile, hdir, hstale] at h
                rw [← h] at hok
                simp at hok
              · by_cases hsame : fi.content = content
                · simp [writeToolRun, hpath, hcontent, hfile, hdir, hstale, hsame] at h
                  rw [← h] at hok
                  simp at hok
                · simp [writeToolRun, hpath, hcontent, hfile, hdir, hstale, hsame, hsm, hperm]

theorem getLastReadTime_writeFileState (st : ToolState) (path content : String) :
    getLastReadTime (writeFileState st path content) path = st.now := by
  simp [getLastReadTime, writeFileState_record st path content]

theorem isPrefixOf_append_right (l : List Char) :
    ∀ x y : List Char, l.isPrefixOf x = true → l.isPrefixOf (x ++ y) = true := by
  induction l with
  | nil => intro x y _; simp [List.isPrefixOf]
  | cons c t ih =>
    intro x y h
    cases x with
    | nil => simp [List.isPrefixOf] at h
    | cons d r =>
      have hcons : ((c :: t).isPrefixOf (d :: r)) = (c == d && t.isPrefixOf r) := rfl
      have hcons2 : ((c :: t).isPrefixOf (d :: (r ++ y))) = (c == d && t.isPrefixOf (r ++ y)) := rfl
      rw [List.cons_append, hcons2]
      rw [hcons, Bool.and_eq_true] at h
      rw [Bool.and_eq_true]
      exact ⟨h.1, ih r y h.2⟩

theorem firstOcc_some_isPrefixOf_drop (sub : List Char) :
    ∀ hay i, firstOcc sub hay = some i → sub.isPrefixOf (hay.drop i) = true := by
  intro hay
  induction hay with
  | nil =>
    intro i h
    by_cases hp : sub.isPrefixOf ([] : List Char) = true
    · simp [firstOcc, hp] at h
      simp [← h, hp]
    · simp [firstOcc, hp] at h
  | cons c t ih =>
    intro i h
    by_cases hp : sub.isPrefixOf (c :: t) = true
    · simp [firstOcc, hp] at h
      simp [← h, hp]
    · simp [firstOcc, hp] at h
      obtain ⟨j, hj, hji⟩ := h
      rw [← hji]
      simpa using ih j hj

/-- Substring containment survives embedding the containing string between
arbitrary other pieces. -/
theorem goContains_extend (m atomS sub : String) (pre post : List Char)
    (hdata : m.data = pre ++ atomS.data ++ post)
    (h : goContains atomS sub = true) : goContains m sub = true := by
  unfold goContains at h ⊢
  obtain ⟨i, hi⟩ := Option.isSome_iff_exists.mp h
  have hpre := firstOcc_some_isPrefixOf_drop sub.data atomS.data i hi
  have h2 : sub.data.isPrefixOf (atomS.data.drop i ++ post) = true :=
    isPrefixOf_append_right sub.data _ post hpre
  have h3 := firstOcc_isSome_of_suffix sub.data (atomS.data.drop i ++ post) h2
    (pre ++ atomS.data.take i)
  have heq : (pre ++ atomS.data.take i) ++ (atomS.data.drop i ++ post)
      = pre ++ atomS.data ++ post := by
    rw [List.append_assoc, ← List.append_assoc (atomS.data.take i), List.take_append_drop,
      ← List.append_assoc]
  rw [hdata]
  rw [heq] at h3
  exact h3

/-- C1: for an edit call with nonempty old and new strings on an existing,
previously read, non-stale file (permission granted, session and message
ids present): when old occurs exactly once the run succeeds and the file
content becomes the old content with that one occurrence replaced; when it
occurs zero times or more than once the run fails with an error and the
state, hence the file content, is unchanged. -/
theorem edit_replace_single_occurrence
    (genDiff : String → String → String → String × Nat × Nat) (fmt : Nat → String)
    (st : ToolState) (sessionID messageID filePath oldString newString : String)
    (fi : FileEntry)
    (hfile : List.lookup filePath st.files = some fi)
    (hdir : fi.isDir = false)
    (hread : getLastReadTime st filePath ≠ 0)
    (hfresh : fi.mtime ≤ getLastReadTime st filePath)
    (hold : oldString ≠ "") (hnew : newString ≠ "")
    (hsid : sessionID ≠ "") (hmid : messageID ≠ "") :
    (occCount oldString.data fi.content.data = 1 →
      ∃ i a r, firstOcc oldString.data fi.content.data = some i ∧
        (replaceContent genDiff fmt st true sessionID messageID filePath oldString newString).1
          = ToolOutcome.ok ("Content replaced in file: " ++ filePath) a r ∧
        List.lookup filePath
            (replaceContent genDiff fmt st true sessionID messageID filePath oldString newString).2.files
          = some { content := strReplaceAt fi.content i oldString.data.length newString,
                   mtime := st.now, isDir := false }) ∧
    (occCount oldString.data fi.content.data ≠ 1 →
      (∃ m, (replaceContent genDiff fmt st true sessionID messageID filePath oldString newString).1
          = ToolOutcome.err m) ∧
      (replaceContent genDiff fmt st true sessionID messageID filePath oldString newString).2 = st) := by
  have hnl : ¬ getLastReadTime st filePath < fi.mtime := Nat.not_lt.mpr hfresh
  constructor
  · intro h1
    obtain ⟨i, hf, hl⟩ := (occCount_one_iff _ _).mp h1
    have heq := replaceContent_found_eq genDiff fmt st sessionID messageID filePath oldString
      newString fi i hfile hdir hread hnl hf hl hsid hmid
    refine ⟨i,
      (genDiff filePath fi.content (strReplaceAt fi.content i oldString.data.length newString)).2.1,
      (genDiff filePath fi.content (strReplaceAt fi.content i oldString.data.length newString)).2.2,
      hf, ?_, ?_⟩
    · rw [heq]
    · rw [heq]
      exact writeFileState_file st filePath _
  · intro hne
    rcases Nat.lt_or_ge (occCount oldString.data fi.content.data) 1 with hlt | hge
    · have h0 : occCount oldString.data fi.content.data = 0 := by omega
      have hf : firstOcc oldString.data fi.content.data = none := (firstOcc_none_iff _ _).mpr h0
      rw [replaceContent_notfound_eq genDiff fmt st true sessionID messageID filePath oldString
        newString fi hfile hdir hread hnl hf]
      exact ⟨⟨_, rfl⟩, rfl⟩
    · cases hf : firstOcc oldString.data fi.content.data with
      | none =>
        have := (firstOcc_none_iff oldString.data fi.content.data).mp hf
        omega
      | some i =>
        cases hl : lastOcc oldString.data fi.content.data with
        | none =>
          have := (lastOcc_none_iff oldString.data fi.content.data).mp hl
          omega
        | some j =>
          have hij : j ≠ i := by
            intro he
            have : occCount oldString.data fi.content.data = 1 :=
              (occCount_one_iff _ _).mpr ⟨i, hf, he ▸ hl⟩
            omega
          rw [replaceContent_multi_eq genDiff fmt st true sessionID messageID filePath oldString
            newString fi i j hfile hdir hread hnl hf hl hij]
          exact ⟨⟨_, rfl⟩, rfl⟩

/-- C1 witness: a concrete single-occurrence edit on a read, fresh file. -/
theorem edit_replace_single_occurrence_witness :
    (occCount "world".data "hello world".data = 1 →
      ∃ i a r, firstOcc "world".data "hello world".data = some i ∧
        (replaceContent (fun _ _ _ => ("", 1, 1)) (fun _ => "")
          (⟨[("/w/a.txt", ⟨"hello world", 3, false⟩)], [("/w/a.txt", ⟨5, 0⟩)], 10⟩ : ToolState)
          true "s" "m" "/w/a.txt" "world" "moon").1
          = ToolOutcome.ok ("Content replaced in file: " ++ "/w/a.txt") a r ∧
        List.lookup "/w/a.txt"
            (replaceContent (fun _ _ _ => ("", 1, 1)) (fun _ => "")
              (⟨[("/w/a.txt", ⟨"hello world", 3, false⟩)], [("/w/a.txt", ⟨5, 0⟩)], 10⟩ : ToolState)
              true "s" "m" "/w/a.txt" "world" "moon").2.files
          = some { content := strReplaceAt "hello world" i "world".data.length "moon",
                   mtime := 10, isDir := false }) ∧
    (occCount "world".data "hello world".data ≠ 1 →
      (∃ m, (replaceContent (fun _ _ _ => ("", 1, 1)) (fun _ => "")
          (⟨[("/w/a.txt", ⟨"hello world", 3, false⟩)], [("/w/a.txt", ⟨5, 0⟩)], 10⟩ : ToolState)
          true "s" "m" "/w/a.txt" "world" "moon").1
          = ToolOutcome.err m) ∧
      (replaceContent (fun _ _ _ => ("", 1, 1)) (fun _ => "")
          (⟨[("/w/a.txt", ⟨"hello world", 3, false⟩)], [("/w/a.txt", ⟨5, 0⟩)], 10⟩ : ToolState)
          true "s" "m" "/w/a.txt" "world" "moon").2
        = (⟨[("/w/a.txt", ⟨"hello world", 3, false⟩)], [("/w/a.txt", ⟨5, 0⟩)], 10⟩ : ToolState)) :=
  edit_replace_single_occurrence (fun _ _ _ => ("", 1, 1)) (fun _ => "")
    (⟨[("/w/a.txt", ⟨"hello world", 3, false⟩)], [("/w/a.txt", ⟨5, 0⟩)], 10⟩ : ToolState)
    "s" "m" "/w/a.txt" "world" "moon" ⟨"hello world", 3, false⟩
    (by decide) (by decide) (by decide) (by decide) (by decide) (by decide) (by decide) (by decide)

theorem goContains_refl (s : String) : goContains s s = true := by
  have hp : s.data.isPrefixOf s.data = true := by
    simpa using isPrefixOf_append_self s.data []
  have := firstOcc_isSome_of_suffix s.data s.data hp []
  simpa [goContains] using this

/-- C2: a write, edit-replace, or edit-delete of an existing file whose
modification time is later than the recorded (nonzero) last-read time fails
with an error whose message contains both timestamps as formatted by the
RFC3339 formatter, and the state is unchanged: no write happens (and, these
tools creating no file snapshots at all, none is created). -/
theorem stale_file_rejection
    (genDiff : String → String → String → String × Nat × Nat) (fmt : Nat → String)
    (diag : String → String) (st : ToolState) (perm : Bool)
    (sessionID messageID filePath oldString newString content : String)
    (fi : FileEntry)
    (hpath : filePath ≠ "") (hcontent : content ≠ "")
    (hfile : List.lookup filePath st.files = some fi)
    (hdir : fi.isDir = false)
    (hread : 0 < getLastReadTime st filePath)
    (hstale : getLastReadTime st filePath < fi.mtime) :
    (∃ m, replaceContent genDiff fmt st perm sessionID messageID filePath oldString newString
        = (ToolOutcome.err m, st)
      ∧ goContains m (fmt fi.mtime) = true
      ∧ goContains m (fmt (getLastReadTime st filePath)) = true) ∧
    (∃ m, deleteContent genDiff fmt st perm sessionID messageID filePath oldString
        = (ToolOutcome.err m, st)
      ∧ goContains m (fmt fi.mtime) = true
      ∧ goContains m (fmt (getLastReadTime st filePath)) = true) ∧
    (∃ resp, writeToolRun genDiff fmt diag st perm sessionID messageID filePath content
        = (Except.ok resp, st)
      ∧ resp.isError = true
      ∧ goContains resp.content (fmt fi.mtime) = true
      ∧ goContains resp.content (fmt (getLastReadTime st filePath)) = true) := by
  have hrz : getLastReadTime st filePath ≠ 0 := by omega
  refine ⟨⟨_, replaceContent_stale_eq genDiff fmt st perm sessionID messageID filePath oldString
      newString fi hfile hdir hrz hstale, ?_, ?_⟩,
    ⟨_, deleteContent_stale_eq genDiff fmt st perm sessionID messageID filePath oldString
      fi hfile hdir hrz hstale, ?_, ?_⟩,
    ⟨_, writeToolRun_stale_eq genDiff fmt diag st perm sessionID messageID filePath content
      fi hpath hcontent hfile hdir hstale, rfl, ?_, ?_⟩⟩
  · exact goContains_extend _ (fmt fi.mtime) _
      ("file " ++ filePath ++ " has been modified since it was last read (mod time: ").data
      (", last read: " ++ fmt (getLastReadTime st filePath) ++ ")" ).data
      (by simp [data_append, List.append_assoc])
      (goContains_refl (fmt fi.mtime))
  · exact goContains_extend _ (fmt (getLastReadTime st filePath)) _
      ("file " ++ filePath ++ " has been modified since it was last read (mod time: "
        ++ fmt fi.mtime ++ ", last read: ").data
      (")" : String).data
      (by simp [data_append, List.append_assoc])
      (goContains_refl (fmt (getLastReadTime st filePath)))
  · exact goContains_extend _ (fmt fi.mtime) _
      ("file " ++ filePath ++ " has been modified since it was last read (mod time: ").data
      (", last read: " ++ fmt (getLastReadTime st filePath) ++ ")" ).data
      (by simp [data_append, List.append_assoc])
      (goContains_refl (fmt fi.mtime))
  · exact goContains_extend _ (fmt (getLastReadTime st filePath)) _
      ("file " ++ filePath ++ " has been modified since it was last read (mod time: "
        ++ fmt fi.mtime ++ ", last read: ").data
      (")" : String).data
      (by simp [data_append, List.append_assoc])
      (goContains_refl (fmt (getLastReadTime st filePath)))
  · exact goContains_extend _ (fmt fi.mtime) _
      ("File " ++ filePath ++ " has been modified since it was last read.\nLast modification: ").data
      (("\nLast read: " ++ fmt (getLastReadTime st filePath)
        ++ "\n\nPlease read the file again before modifying it.").data)
      (by simp [data_append, List.append_assoc])
      (goContains_refl (fmt fi.mtime))
  · exact goContains_extend _ (fmt (getLastReadTime st filePath)) _
      ("File " ++ filePath ++ " has been modified since it was last read.\nLast modification: "
        ++ fmt fi.mtime ++ "\nLast read: ").data
      ("\n\nPlease read the file again before modifying it." : String).data
      (by simp [data_append, List.append_assoc])
      (goContains_refl (fmt (getLastReadTime st filePath)))

/-- C2 witness: a concrete stale edit is rejected with both formatted
timestamps in the message and an unchanged state. -/
theorem stale_file_rejection_witness :
    ∃ m, replaceContent (fun _ _ _ => ("", 0, 0)) (fun n => Nat.repr n)
        (⟨[("/w/b.txt", ⟨"x", 9, false⟩)], [("/w/b.txt", ⟨4, 0⟩)], 10⟩ : ToolState)
        true "s" "m" "/w/b.txt" "x" "y"
        = (ToolOutcome.err m,
           (⟨[("/w/b.txt", ⟨"x", 9, false⟩)], [("/w/b.txt", ⟨4, 0⟩)], 10⟩ : ToolState))
      ∧ goContains m (Nat.repr 9) = true
      ∧ goContains m (Nat.repr 4) = true :=
  (stale_file_rejection (fun _ _ _ => ("", 0, 0)) (fun n => Nat.repr n) (fun _ => "")
    (⟨[("/w/b.txt", ⟨"x", 9, false⟩)], [("/w/b.txt", ⟨4, 0⟩)], 10⟩ : ToolState)
    true "s" "m" "/w/b.txt" "x" "y" "z" ⟨"x", 9, false⟩
    (by decide) (by decide) (by decide) (by decide) (by decide) (by decide)).1

/-- C3 counterexample: an edit-delete of an existing file that was never
read fails as the claim says, but the error message does not contain the
literal "must read before editing" (the source message reads "you must
read the file before editing it"); so the claimed message literal is wrong. -/
theorem read_before_write_counterexample :
    (deleteContent (fun _ _ _ => ("", 0, 0)) (fun _ => "")
        (⟨[("/w/c.txt", ⟨"x", 5, false⟩)], [], 10⟩ : ToolState) true "s" "m" "/w/c.txt" "x").1
      = ToolOutcome.err "you must read the file before editing it. Use the View tool first"
    ∧ goContains "you must read the file before editing it. Use the View tool first"
        "must read before editing" = false := by
  constructor
  · decide
  · decide

/-- C3 (amended): an edit-replace or edit-delete of an existing file path
never read in this run fails with the message "you must read the file
before editing it. Use the View tool first" (which contains "must read the
file before editing") and leaves the state unchanged; an overwrite of an
existing never-read file with positive modification time also fails
without modifying anything, but through the staleness check (zero last-read
time), with the modified-since-last-read message. -/
theorem read_before_write_enforced
    (genDiff : String → String → String → String × Nat × Nat) (fmt : Nat → String)
    (diag : String → String) (st : ToolState) (perm : Bool)
    (sessionID messageID filePath oldString newString content : String)
    (fi : FileEntry)
    (hpath : filePath ≠ "") (hcontent : content ≠ "")
    (hfile : List.lookup filePath st.files = some fi)
    (hdir : fi.isDir = false)
    (hread0 : getLastReadTime st filePath = 0)
    (hmt : 0 < fi.mtime) :
    replaceContent genDiff fmt st perm sessionID messageID filePath oldString newString
      = (ToolOutcome.err "you must read the file before editing it. Use the View tool first", st) ∧
    deleteContent genDiff fmt st perm sessionID messageID filePath oldString
      = (ToolOutcome.err "you must read the file before editing it. Use the View tool first", st) ∧
    goContains "you must read the file before editing it. Use the View tool first"
      "must read the file before editing" = true ∧
    writeToolRun genDiff fmt diag st perm sessionID messageID filePath content
      = (Except.ok ⟨"File " ++ filePath ++ " has been modified since it was last read.\nLast modification: "
          ++ fmt fi.mtime ++ "\nLast read: " ++ fmt 0
          ++ "\n\nPlease read the file again before modifying it.", true⟩, st) := by
  have hstale : getLastReadTime st filePath < fi.mtime := by omega
  refine ⟨replaceContent_unread_eq genDiff fmt st perm sessionID messageID filePath oldString
      newString fi hfile hdir hread0,
    deleteContent_unread_eq genDiff fmt st perm sessionID messageID filePath oldString
      fi hfile hdir hread0,
    by decide, ?_⟩
  rw [writeToolRun_stale_eq genDiff fmt diag st perm sessionID messageID filePath content
    fi hpath hcontent hfile hdir hstale, hread0]

/-- C3 witness for the amended claim at a concrete never-read file. -/
theorem read_before_write_enforced_witness :
    replaceContent (fun _ _ _ => ("", 0, 0)) (fun n => Nat.repr n)
        (⟨[("/w/c.txt", ⟨"x", 5, false⟩)], [], 10⟩ : ToolState) true "s" "m" "/w/c.txt" "x" "y"
      = (ToolOutcome.err "you must read the file before editing it. Use the View tool first",
         (⟨[("/w/c.txt", ⟨"x", 5, false⟩)], [], 10⟩ : ToolState)) ∧
    deleteContent (fun _ _ _ => ("", 0, 0)) (fun n => Nat.repr n)
        (⟨[("/w/c.txt", ⟨"x", 5, false⟩)], [], 10⟩ : ToolState) true "s" "m" "/w/c.txt" "x"
      = (ToolOutcome.err "you must read the file before editing it. Use the View tool first",
         (⟨[("/w/c.txt", ⟨"x", 5, false⟩)], [], 10⟩ : ToolState)) ∧
    goContains "you must read the file before editing it. Use the View tool first"
      "must read the file before editing" = true ∧
    writeToolRun (fun _ _ _ => ("", 0, 0)) (fun n => Nat.repr n) (fun _ => "")
        (⟨[("/w/c.txt", ⟨"x", 5, false⟩)], [], 10⟩ : ToolState) true "s" "m" "/w/c.txt" "z"
      = (Except.ok ⟨"File " ++ "/w/c.txt" ++ " has been modified since it was last read.\nLast modification: "
          ++ Nat.repr 5 ++ "\nLast read: " ++ Nat.repr 0
          ++ "\n\nPlease read the file again before modifying it.", true⟩,
         (⟨[("/w/c.txt", ⟨"x", 5, false⟩)], [], 10⟩ : ToolState)) :=
  read_before_write_enforced (fun _ _ _ => ("", 0, 0)) (fun n => Nat.repr n) (fun _ => "")
    (⟨[("/w/c.txt", ⟨"x", 5, false⟩)], [], 10⟩ : ToolState) true "s" "m" "/w/c.txt" "x" "y" "z"
    ⟨"x", 5, false⟩ (by decide) (by decide) (by decide) (by decide) (by decide) (by decide)

/-- C7 counterexample: a write whose content is identical to the target
file content, on a file that is stale (modified after the last read), is
refused through the staleness check: the run fails, but its message does
not contain "already contains the exact content" as the claim requires of
every identical-content write. -/
theorem noop_write_counterexample :
    (⟨"hi", 9, false⟩ : FileEntry).content = "hi" ∧
    (writeToolRun (fun _ _ _ => ("", 0, 0)) (fun _ => "") (fun _ => "")
        (⟨[("/w/d.txt", ⟨"hi", 9, false⟩)], [("/w/d.txt", ⟨4, 0⟩)], 10⟩ : ToolState)
        true "s" "m" "/w/d.txt" "hi").1
      = Except.ok ⟨"File /w/d.txt has been modified since it was last read.\nLast modification: \nLast read: \n\nPlease read the file again before modifying it.", true⟩
    ∧ goContains "File /w/d.txt has been modified since it was last read.\nLast modification: \nLast read: \n\nPlease read the file again before modifying it."
        "already contains the exact content" = false := by
  refine ⟨rfl, ?_, ?_⟩
  · decide
  · decide

/-- C7 (amended): a write call with nonempty content identical to the
current content of an existing, non-stale target file is refused with a
tool error whose message contains "already contains the exact content";
the state is unchanged, so nothing is written (and these tools create no
snapshots). A stale target is refused earlier, by the staleness check. -/
theorem noop_write_refused
    (genDiff : String → String → String → String × Nat × Nat) (fmt : Nat → String)
    (diag : String → String) (st : ToolState) (perm : Bool)
    (sessionID messageID filePath content : String)
    (fi : FileEntry)
    (hpath : filePath ≠ "") (hcontent : content ≠ "")
    (hfile : List.lookup filePath st.files = some fi)
    (hdir : fi.isDir = false)
    (hfresh : ¬ getLastReadTime st filePath < fi.mtime)
    (hsame : fi.content = content) :
    writeToolRun genDiff fmt diag st perm sessionID messageID filePath content
      = (Except.ok ⟨"File " ++ filePath ++ " already contains the exact content. No changes made.", true⟩, st) ∧
    goContains ("File " ++ filePath ++ " already contains the exact content. No changes made.")
      "already contains the exact content" = true := by
  refine ⟨writeToolRun_noop_eq genDiff fmt diag st perm sessionID messageID filePath content
    fi hpath hcontent hfile hdir hfresh hsame, ?_⟩
  exact goContains_extend _ (" already contains the exact content. No changes made." : String) _
    ("File " ++ filePath).data ([] : List Char)
    (by simp [data_append])
    (by decide)

/-- C7 witness: a concrete identical-content write on a fresh file. -/
theorem noop_write_refused_witness :
    writeToolRun (fun _ _ _ => ("", 0, 0)) (fun n => Nat.repr n) (fun _ => "")
        (⟨[("/w/e.txt", ⟨"hi", 3, false⟩)], [("/w/e.txt", ⟨5, 0⟩)], 10⟩ : ToolState)
        true "s" "m" "/w/e.txt" "hi"
      = (Except.ok ⟨"File " ++ "/w/e.txt" ++ " already contains the exact content. No changes made.", true⟩,
         (⟨[("/w/e.txt", ⟨"hi", 3, false⟩)], [("/w/e.txt", ⟨5, 0⟩)], 10⟩ : ToolState)) ∧
    goContains ("File " ++ "/w/e.txt" ++ " already contains the exact content. No changes made.")
      "already contains the exact content" = true :=
  noop_write_refused (fun _ _ _ => ("", 0, 0)) (fun n => Nat.repr n) (fun _ => "")
    (⟨[("/w/e.txt", ⟨"hi", 3, false⟩)], [("/w/e.txt", ⟨5, 0⟩)], 10⟩ : ToolState)
    true "s" "m" "/w/e.txt" "hi" ⟨"hi", 3, false⟩
    (by decide) (by decide) (by decide) (by decide) (by decide) (by decide)

/-- C10: whenever a mutating tool run (edit-replace, edit-delete,
edit-create, or write) succeeds, the file-record map afterwards holds, for
the target path, a record whose write time and read time are the run
clock, with the read at or after the write and nonzero; hence the recorded
last-read time is nonzero and an immediately following edit of the same
path passes the must-read-before-editing check. -/
theorem mutating_run_records_read_write
    (genDiff : String → String → String → String × Nat × Nat) (fmt : Nat → String)
    (diag : String → String) (st : ToolState) (perm : Bool)
    (sessionID messageID filePath oldString newString content : String)
    (hnow : 0 < st.now) :
    (∀ t a r, (replaceContent genDiff fmt st perm sessionID messageID filePath oldString newString).1
        = ToolOutcome.ok t a r →
      ∃ rec : FileRecord,
        List.lookup filePath
          (replaceContent genDiff fmt st perm sessionID messageID filePath oldString newString).2.records
          = some rec ∧
        rec.writeTime ≤ rec.readTime ∧ rec.readTime = st.now ∧
        getLastReadTime
          (replaceContent genDiff fmt st perm sessionID messageID filePath oldString newString).2
          filePath ≠ 0) ∧
    (∀ t a r, (deleteContent genDiff fmt st perm sessionID messageID filePath oldString).1
        = ToolOutcome.ok t a r →
      ∃ rec : FileRecord,
        List.lookup filePath
          (deleteContent genDiff fmt st perm sessionID messageID filePath oldString).2.records
          = some rec ∧
        rec.writeTime ≤ rec.readTime ∧ rec.readTime = st.now ∧
        getLastReadTime
          (deleteContent genDiff fmt st perm sessionID messageID filePath oldString).2
          filePath ≠ 0) ∧
    (∀ t a r, (createNewFile genDiff st perm sessionID messageID filePath content).1
        = ToolOutcome.ok t a r →
      ∃ rec : FileRecord,
        List.lookup filePath
          (createNewFile genDiff st perm sessionID messageID filePath content).2.records
          = some rec ∧
        rec.writeTime ≤ rec.readTime ∧ rec.readTime = st.now ∧
        getLastReadTime
          (createNewFile genDiff st perm sessionID messageID filePath content).2
          filePath ≠ 0) ∧
    (∀ resp : ToolResponse,
      (writeToolRun genDiff fmt diag st perm sessionID messageID filePath content).1
        = Except.ok resp →
      resp.isError = false →
      ∃ rec : FileRecord,
        List.lookup filePath
          (writeToolRun genDiff fmt diag st perm sessionID messageID filePath content).2.records
          = some rec ∧
        rec.writeTime ≤ rec.readTime ∧ rec.readTime = st.now ∧
        getLastReadTime
          (writeToolRun genDiff fmt diag st perm sessionID messageID filePath content).2
          filePath ≠ 0) := by
  refine ⟨?_, ?_, ?_, ?_⟩
  · intro t a r h
    obtain ⟨nc, hs⟩ := replaceContent_ok_state genDiff fmt st perm sessionID messageID filePath
      oldString newString t a r h
    rw [hs]
    exact ⟨⟨st.now, st.now⟩, writeFileState_record st filePath nc, le_refl _, rfl,
      by rw [getLastReadTime_writeFileState]; omega⟩
  · intro t a r h
    obtain ⟨nc, hs⟩ := deleteContent_ok_state genDiff fmt st perm sessionID messageID filePath
      oldString t a r h
    rw [hs]
    exact ⟨⟨st.now, st.now⟩, writeFileState_record st filePath nc, le_refl _, rfl,
      by rw [getLastReadTime_writeFileState]; omega⟩
  · intro t a r h
    obtain ⟨nc, hs⟩ := createNewFile_ok_state genDiff st perm sessionID messageID filePath
      content t a r h
    rw [hs]
    exact ⟨⟨st.now, st.now⟩, writeFileState_record st filePath nc, le_refl _, rfl,
      by rw [getLastReadTime_writeFileState]; omega⟩
  · intro resp h hok
    have hs := writeToolRun_ok_state genDiff fmt diag st perm sessionID messageID filePath
      content resp h hok
    rw [hs]
    exact ⟨⟨st.now, st.now⟩, writeFileState_record st filePath content, le_refl _, rfl,
      by rw [getLastReadTime_writeFileState]; omega⟩

/-- C10 witness: the record after a concrete successful replace. -/
theorem mutating_run_records_read_write_witness :
    ∃ rec : FileRecord,
      List.lookup "/w/a.txt"
        (replaceContent (fun _ _ _ => ("", 1, 1)) (fun _ => "")
          (⟨[("/w/a.txt", ⟨"hello world", 3, false⟩)], [("/w/a.txt", ⟨5, 0⟩)], 10⟩ : ToolState)
          true "s" "m" "/w/a.txt" "world" "moon").2.records
        = some rec ∧
      rec.writeTime ≤ rec.readTime ∧ rec.readTime = 10 ∧
      getLastReadTime
        (replaceContent (fun _ _ _ => ("", 1, 1)) (fun _ => "")
          (⟨[("/w/a.txt", ⟨"hello world", 3, false⟩)], [("/w/a.txt", ⟨5, 0⟩)], 10⟩ : ToolState)
          true "s" "m" "/w/a.txt" "world" "moon").2
        "/w/a.txt" ≠ 0 :=
  (mutating_run_records_read_write (fun _ _ _ => ("", 1, 1)) (fun _ => "") (fun _ => "")
    (⟨[("/w/a.txt", ⟨"hello world", 3, false⟩)], [("/w/a.txt", ⟨5, 0⟩)], 10⟩ : ToolState)
    true "s" "m" "/w/a.txt" "world" "moon" "x" (by decide)).1
    ("Content replaced in file: " ++ "/w/a.txt") 1 1 (by decide)

/-- C4: the provider client retries only errors recognised as API errors
carrying HTTP status 429 or 529, and at most maxRetries = 8 times; absent a
Retry-After header the wait before retry attempt k (1-indexed) is exactly
2000·2^(k-1)·1.2 ms, so it lies between 2000·2^(k-1) and 1.2·2000·2^(k-1);
a parsed Retry-After value n overrides the wait with n·1000 ms; all other
errors are fatal. -/
theorem provider_retry_policy :
    (∀ (attempts : Nat) (e : GoAPIError) (ms : Int), shouldRetry attempts e = some ms →
      e.isAPIError = true ∧ (e.statusCode = 429 ∨ e.statusCode = 529) ∧ attempts ≤ maxRetries) ∧
    (∀ (k : Nat) (e : GoAPIError), 1 ≤ k → k ≤ maxRetries → e.isAPIError = true →
      (e.statusCode = 429 ∨ e.statusCode = 529) → e.retryAfterValues = [] →
      shouldRetry k e = some (2400 * 2 ^ (k - 1)) ∧
      (2000 * 2 ^ (k - 1) : Int) ≤ 2400 * 2 ^ (k - 1) ∧
      (10 * (2400 * 2 ^ (k - 1)) : Int) ≤ 12 * (2000 * 2 ^ (k - 1))) ∧
    (∀ (k : Nat) (e : GoAPIError) (v : String) (vs : List String) (n : Int),
      k ≤ maxRetries → e.isAPIError = true →
      (e.statusCode = 429 ∨ e.statusCode = 529) → e.retryAfterValues = v :: vs →
      sscanfInt v = some n →
      shouldRetry k e = some (n * 1000)) ∧
    (∀ (attempts : Nat) (e : GoAPIError),
      (e.isAPIError = false ∨ (e.statusCode ≠ 429 ∧ e.statusCode ≠ 529) ∨ attempts > maxRetries) →
      shouldRetry attempts e = none) := by
  refine ⟨?_, ?_, ?_, ?_⟩
  · intro attempts e ms h
    by_cases h1 : e.isAPIError = false
    · simp [shouldRetry, h1] at h
    · by_cases h2 : e.statusCode ≠ 429 ∧ e.statusCode ≠ 529
      · simp [shouldRetry, h1, h2] at h
      · by_cases h3 : attempts > maxRetries
        · simp [shouldRetry, h1, h2, h3] at h
        · exact ⟨by simpa using h1, by tauto, by omega⟩
  · intro k e hk1 hk8 hapi hsc hra
    have h1 : ¬ e.isAPIError = false := by simp [hapi]
    have h2 : ¬ (e.statusCode ≠ 429 ∧ e.statusCode ≠ 529) := by tauto
    have h3 : ¬ k > maxRetries := by omega
    have hdiv : (2000 * 2 ^ (k - 1) : Int) / 5 = 400 * 2 ^ (k - 1) := by
      rw [show (2000 * 2 ^ (k - 1) : Int) = 5 * (400 * 2 ^ (k - 1)) from by ring]
      exact Int.mul_ediv_cancel_left _ (by norm_num)
    have h2p : (0 : Int) ≤ 2 ^ (k - 1) := by positivity
    refine ⟨?_, by nlinarith, by nlinarith⟩
    simp only [shouldRetry, h1, h2, h3, hra, if_false, if_neg]
    simp [hdiv]
    ring
  · intro k e v vs n hk8 hapi hsc hra hv
    have h1 : ¬ e.isAPIError = false := by simp [hapi]
    have h2 : ¬ (e.statusCode ≠ 429 ∧ e.statusCode ≠ 529) := by tauto
    have h3 : ¬ k > maxRetries := by omega
    simp [shouldRetry, h1, h2, h3, hra, hv]
  · intro attempts e h
    rcases h with h1 | h2 | h3
    · simp [shouldRetry, h1]
    · by_cases h1 : e.isAPIError = false
      · simp [shouldRetry, h1]
      · simp [shouldRetry, h1, h2]
    · by_cases h1 : e.isAPIError = false
      · simp [shouldRetry, h1]
      · by_cases h2 : e.statusCode ≠ 429 ∧ e.statusCode ≠ 529
        · simp [shouldRetry, h1, h2]
        · simp [shouldRetry, h1, h2, h3]

/-- C4 witness: retry attempt 3 waits 9600 ms (2000·4 backoff plus 20%
jitter); a Retry-After of 7 seconds overrides the wait with 7000 ms. -/
theorem provider_retry_policy_witness :
    shouldRetry 3 ⟨true, 429, []⟩ = some (2400 * 2 ^ (3 - 1)) ∧
    shouldRetry 1 ⟨true, 529, ["7"]⟩ = some (7 * 1000) :=
  ⟨(provider_retry_policy.2.1 3 ⟨true, 429, []⟩ (by decide) (by decide) (by decide)
      (by decide) rfl).1,
   provider_retry_policy.2.2.1 1 ⟨true, 529, ["7"]⟩ "7" [] 7 (by decide) (by decide)
      (by decide) rfl (by decide)⟩

theorem length_setSlot {α : Type} : ∀ (l : List (Option α)) (i : Nat) (v : α),
    (setSlot l i v).length = l.length := by
  intro l
  induction l with
  | nil => intro i v; cases i <;> simp [setSlot]
  | cons h t ih => intro i v; cases i <;> simp [setSlot, ih]

theorem getSlot_setSlot {α : Type} : ∀ (l : List (Option α)) (i j : Nat) (v : α),
    getSlot (setSlot l i v) j = if i = j ∧ j < l.length then some v else getSlot l j := by
  intro l
  induction l with
  | nil => intro i j v; cases i <;> cases j <;> simp [setSlot, getSlot]
  | cons h t ih =>
    intro i j v
    cases i with
    | zero =>
      cases j with
      | zero => simp [setSlot, getSlot]
      | succ j' => simp [setSlot, getSlot]
    | succ i' =>
      cases j with
      | zero => simp [setSlot, getSlot]
      | succ j' =>
        simp only [setSlot, getSlot, ih, List.length_cons]
        by_cases hc : i' = j' ∧ j' < t.length
        · rw [if_pos hc, if_pos (by omega)]
        · rw [if_neg hc, if_neg (by omega)]

theorem length_runSchedule (f : Nat → ToolResultRec) :
    ∀ (schedule : List Nat) (slots : List (Option ToolResultRec)),
      (runSchedule f schedule slots).length = slots.length := by
  intro schedule
  induction schedule with
  | nil => intro slots; simp [runSchedule]
  | cons i rest ih =>
    intro slots
    rw [runSchedule, ih, length_setSlot]

theorem getSlot_runSchedule (f : Nat → ToolResultRec) :
    ∀ (schedule : List Nat) (slots : List (Option ToolResultRec)) (j : Nat),
      getSlot (runSchedule f schedule slots) j =
        if j ∈ schedule ∧ j < slots.length then some (f j) else getSlot slots j := by
  intro schedule
  induction schedule with
  | nil => intro slots j; simp [runSchedule]
  | cons i rest ih =>
    intro slots j
    rw [runSchedule, ih, length_setSlot]
    by_cases h1 : j ∈ rest ∧ j < slots.length
    · rw [if_pos h1, if_pos ⟨List.mem_cons_of_mem i h1.1, h1.2⟩]
    · rw [if_neg h1, getSlot_setSlot]
      by_cases h2 : i = j ∧ j < slots.length
      · rw [if_pos h2, if_pos ⟨by rw [← h2.1]; exact List.mem_cons_self i rest, h2.2⟩, h2.1]
      · have hn : ¬ (j ∈ i :: rest ∧ j < slots.length) := by
          intro hc
          rcases List.mem_cons.mp hc.1 with he | hm
          · exact h2 ⟨he.symm, hc.2⟩
          · exact h1 ⟨hm, hc.2⟩
        rw [if_neg h2, if_neg hn]

theorem length_collectSlots : ∀ l : List (Option ToolResultRec),
    (collectSlots l).length = l.length := by
  intro l
  induction l with
  | nil => rfl
  | cons o t ih => simp [collectSlots, ih]

theorem getD_collectSlots : ∀ (l : List (Option ToolResultRec)) (j : Nat),
    (collectSlots l).getD j zeroToolResult = (getSlot l j).getD zeroToolResult := by
  intro l
  induction l with
  | nil => intro j; rfl
  | cons o t ih =>
    intro j
    cases j with
    | zero => rfl
    | succ j' =>
      simp only [collectSlots, List.getD_cons_succ, getSlot]
      exact ih j'

theorem toolTask_id (toolList : List RegisteredTool) (tc : ToolCallRec) :
    (toolTask toolList tc).toolCallID = tc.id := by
  unfold toolTask
  split
  · split
    · rfl
    · rfl
  · rfl

theorem dispatchToolCalls_length (toolList : List RegisteredTool)
    (toolCalls : List ToolCallRec) (schedule : List Nat) :
    (dispatchToolCalls toolList toolCalls schedule).length = toolCalls.length := by
  unfold dispatchToolCalls
  rw [length_collectSlots, length_runSchedule, List.length_replicate]

theorem dispatchToolCalls_getD (toolList : List RegisteredTool)
    (toolCalls : List ToolCallRec) (schedule : List Nat)
    (hsched : ∀ i, i < toolCalls.length → i ∈ schedule)
    (j : Nat) (hj : j < toolCalls.length) :
    (dispatchToolCalls toolList toolCalls schedule).getD j zeroToolResult
      = toolTask toolList (toolCalls.getD j ⟨"", "", ""⟩) := by
  unfold dispatchToolCalls
  rw [getD_collectSlots, getSlot_runSchedule,
    if_pos ⟨hsched j hj, by simpa using hj⟩]
  rfl

/-- C5: when the tool calls of an assistant message are dispatched in
parallel and every task completes (the completion schedule covers every
index, in whatever order), exactly one tool message is persisted, and its
i-th tool result carries the ToolCallID of the i-th tool call of the
assistant message: results keep the original call order regardless of the
completion order. -/
theorem parallel_tools_preserve_call_order
    (toolList : List RegisteredTool) (toolCalls : List ToolCallRec) (schedule : List Nat)
    (hne : toolCalls ≠ [])
    (hsched : ∀ i, i < toolCalls.length → i ∈ schedule) :
    (persistedToolMessages toolList toolCalls schedule).length = 1 ∧
    ∀ msg, msg ∈ persistedToolMessages toolList toolCalls schedule →
      msg.role = Role.tool ∧
      msg.toolResults.length = toolCalls.length ∧
      ∀ j, j < toolCalls.length →
        (msg.toolResults.getD j zeroToolResult).toolCallID
          = (toolCalls.getD j ⟨"", "", ""⟩).id := by
  have hni : toolCalls.isEmpty = false := by
    cases toolCalls with
    | nil => simp at hne
    | cons a b => rfl
  constructor
  · simp [persistedToolMessages, hni]
  · intro msg hm
    simp only [persistedToolMessages, hni, Bool.false_eq_true, if_false, List.mem_singleton] at hm
    subst hm
    refine ⟨rfl, dispatchToolCalls_length toolList toolCalls schedule, ?_⟩
    intro j hj
    rw [dispatchToolCalls_getD toolList toolCalls schedule hsched j hj, toolTask_id]

/-- C5 witness: two calls completing in reverse order still produce one
tool message whose results are in call order. -/
theorem parallel_tools_preserve_call_order_witness :
    (persistedToolMessages [] [⟨"id1", "grep", "i1"⟩, ⟨"id2", "glob", "i2"⟩] [1, 0]).length = 1 ∧
    ∀ msg, msg ∈ persistedToolMessages [] [⟨"id1", "grep", "i1"⟩, ⟨"id2", "glob", "i2"⟩] [1, 0] →
      msg.role = Role.tool ∧
      msg.toolResults.length = ([⟨"id1", "grep", "i1"⟩, ⟨"id2", "glob", "i2"⟩] : List ToolCallRec).length ∧
      ∀ j, j < ([⟨"id1", "grep", "i1"⟩, ⟨"id2", "glob", "i2"⟩] : List ToolCallRec).length →
        (msg.toolResults.getD j zeroToolResult).toolCallID
          = (([⟨"id1", "grep", "i1"⟩, ⟨"id2", "glob", "i2"⟩] : List ToolCallRec).getD j ⟨"", "", ""⟩).id :=
  parallel_tools_preserve_call_order [] [⟨"id1", "grep", "i1"⟩, ⟨"id2", "glob", "i2"⟩] [1, 0]
    (by decide) (by decide)

/-- C6 counterexample: a dispatched call naming no registered tool gets a
result whose content names the missing tool, but its is_error flag is
false, not true as the claim states: the Go code initialises isError to
false and never sets it on the not-found path. -/
theorem missing_tool_error_flag_counterexample :
    (toolTask [] ⟨"c1", "missing", ""⟩).content = "tool not found: missing" ∧
    (toolTask [] ⟨"c1", "missing", ""⟩).isError = false :=
  ⟨rfl, rfl⟩

/-- C6 (amended): for every dispatched tool call whose name matches no
registered tool, the synthesized tool result has content
"tool not found: name", identifying the missing tool, but it is not
marked as an error: its is_error flag is false (the Go zero value). -/
theorem missing_tool_result
    (toolList : List RegisteredTool) (tc : ToolCallRec)
    (hmiss : toolList.find? (fun t => t.name == tc.name) = none) :
    toolTask toolList tc
      = { toolCallID := tc.id, content := "tool not found: " ++ tc.name, isError := false } := by
  unfold toolTask
  rw [hmiss]

/-- C6 witness for the amended claim: the empty tool list misses any name. -/
theorem missing_tool_result_witness :
    toolTask [] ⟨"c1", "missing", ""⟩
      = { toolCallID := "c1", content := "tool not found: " ++ "missing", isError := false } :=
  missing_tool_result [] ⟨"c1", "missing", ""⟩ rfl

theorem expectedFlags_length : ∀ (k c : Nat), (expectedFlags c k).length = k := by
  intro k
  induction k with
  | zero => intro c; rfl
  | succ n ih => intro c; simp [expectedFlags, ih]

theorem expectedFlags_getD : ∀ (k c i : Nat),
    (expectedFlags c k).getD i false = decide (i < k ∧ c + i < 2) := by
  intro k
  induction k with
  | zero => intro c i; simp [expectedFlags]
  | succ n ih =>
    intro c i
    cases i with
    | zero =>
      simp only [expectedFlags, List.getD_cons_zero]
      by_cases hc : c < 2 <;> simp [hc]
    | succ i' =>
      simp only [expectedFlags, List.getD_cons_succ, ih]
      by_cases hc : c < 2
      · simp only [if_pos hc]
        by_cases h2 : i' < n ∧ c + 1 + i' < 2
        · rw [decide_eq_true h2, Eq.comm, decide_eq_true (by omega)]
        · rw [decide_eq_false h2, Eq.comm, decide_eq_false (by omega)]
      · simp only [if_neg hc]
        by_cases h2 : i' < n ∧ c + i' < 2
        · rw [decide_eq_true h2, Eq.comm, decide_eq_true (by omega)]
        · rw [decide_eq_false h2, Eq.comm, decide_eq_false (by omega)]

theorem expectedFlags_count : ∀ (k c : Nat), (expectedFlags c k).count true ≤ 2 - c := by
  intro k
  induction k with
  | zero => intro c; simp [expectedFlags]
  | succ n ih =>
    intro c
    by_cases hc : c < 2
    · have := ih (c + 1)
      simp [expectedFlags, hc, List.count_cons]
      omega
    · have := ih c
      simp [expectedFlags, hc, List.count_cons]
      omega

theorem cachedFlags_cons (am : AMessage) (rest : List AMessage) :
    cachedFlags (am :: rest) = am.blocks.filterMap textFlag ++ cachedFlags rest := by
  simp [cachedFlags]

theorem filterMap_textFlag_toolUse (jsonOk : String -> Bool) (l : List ToolCallRec) :
    ((l.filter (fun tc => jsonOk tc.input)).map
      (fun tc => ABlock.toolUse tc.id tc.name tc.input)).filterMap textFlag = [] := by
  induction l.filter (fun tc => jsonOk tc.input) with
  | nil => rfl
  | cons a b ihb => simpa [textFlag] using ihb

theorem filterMap_textFlag_toolResult (l : List ToolResultRec) :
    (l.map (fun tr => ABlock.toolResult tr.toolCallID tr.content tr.isError)).filterMap
      textFlag = [] := by
  induction l with
  | nil => rfl
  | cons a b ihb => simpa [textFlag] using ihb

theorem cachedFlags_convert (jsonOk : String -> Bool) :
    forall (msgs : List GoMessage) (c : Nat),
      cachedFlags (convertMessages jsonOk false c msgs)
        = expectedFlags c (eligibleTextCount msgs) := by
  intro msgs
  induction msgs with
  | nil => intro c; rfl
  | cons m rest ih =>
    intro c
    cases hr : m.role with
    | user =>
      rw [show eligibleTextCount (m :: rest) = eligibleTextCount rest + 1 from by
        simp [eligibleTextCount, hr, Nat.add_comm]]
      by_cases hc : c < 2
      · simp [convertMessages, hr, hc, cachedFlags_cons, ih, textFlag, expectedFlags]
      · simp [convertMessages, hr, hc, cachedFlags_cons, ih, textFlag, expectedFlags]
    | assistant =>
      by_cases ht : m.content = ""
      · rw [show eligibleTextCount (m :: rest) = eligibleTextCount rest from by
          simp [eligibleTextCount, hr, ht]]
        by_cases hb : ((m.toolCalls.filter (fun tc => jsonOk tc.input)).map
            (fun tc => ABlock.toolUse tc.id tc.name tc.input)).isEmpty
        · simp [convertMessages, hr, assistantBlocks, ht, hb, ih]
        · simp only [convertMessages, hr, assistantBlocks, ht, if_pos rfl, if_neg hb,
            if_true]
          rw [cachedFlags_cons]
          simp [filterMap_textFlag_toolUse, ih]
          intro a _ _
          rfl
      · rw [show eligibleTextCount (m :: rest) = eligibleTextCount rest + 1 from by
          simp [eligibleTextCount, hr, ht, Nat.add_comm]]
        by_cases hc : c < 2
        · simp only [convertMessages, hr, assistantBlocks, if_neg ht, List.isEmpty_cons,
            if_false, Bool.false_eq_true]
          rw [cachedFlags_cons]
          simp [textFlag, filterMap_textFlag_toolUse, ih, expectedFlags, hc]
        · simp only [convertMessages, hr, assistantBlocks, if_neg ht, List.isEmpty_cons,
            if_false, Bool.false_eq_true]
          rw [cachedFlags_cons]
          simp [textFlag, filterMap_textFlag_toolUse, ih, expectedFlags, hc]
    | tool =>
      rw [show eligibleTextCount (m :: rest) = eligibleTextCount rest from by
        simp [eligibleTextCount, hr]]
      simp only [convertMessages, hr]
      rw [cachedFlags_cons]
      simp only [filterMap_textFlag_toolResult, List.nil_append]
      exact ih c
    | system =>
      rw [show eligibleTextCount (m :: rest) = eligibleTextCount rest from by
        simp [eligibleTextCount, hr]]
      simp [convertMessages, hr, ih]

theorem cachedFlags_disable (jsonOk : String → Bool) :
    ∀ (msgs : List GoMessage) (c : Nat) (b : Bool),
      b ∈ cachedFlags (convertMessages jsonOk true c msgs) → b = false := by
  intro msgs
  induction msgs with
  | nil =>
    intro c b hb
    simp [convertMessages, cachedFlags] at hb
  | cons m rest ih =>
    intro c b hb
    cases hr : m.role with
    | user =>
      simp only [convertMessages, hr] at hb
      rw [cachedFlags_cons] at hb
      simp [textFlag] at hb
      rcases hb with hb | hb
      · exact hb
      · exact ih _ b hb
    | assistant =>
      by_cases ht : m.content = ""
      · have hsimp : convertMessages jsonOk true c (m :: rest)
            = (if ((m.toolCalls.filter (fun tc => jsonOk tc.input)).map
                  (fun tc => ABlock.toolUse tc.id tc.name tc.input)).isEmpty
               then convertMessages jsonOk true c rest
               else { role := Role.assistant,
                      blocks := (m.toolCalls.filter (fun tc => jsonOk tc.input)).map
                        (fun tc => ABlock.toolUse tc.id tc.name tc.input) }
                 :: convertMessages jsonOk true c rest) := by
          simp [convertMessages, hr, assistantBlocks, ht]
        rw [hsimp] at hb
        by_cases hbe : ((m.toolCalls.filter (fun tc => jsonOk tc.input)).map
            (fun tc => ABlock.toolUse tc.id tc.name tc.input)).isEmpty
        · rw [if_pos hbe] at hb
          exact ih _ b hb
        · rw [if_neg hbe] at hb
          rw [cachedFlags_cons] at hb
          simp only [filterMap_textFlag_toolUse, List.nil_append] at hb
          exact ih _ b hb
      · have hsimp : convertMessages jsonOk true c (m :: rest)
            = { role := Role.assistant,
                blocks := ABlock.text m.content false
                  :: (m.toolCalls.filter (fun tc => jsonOk tc.input)).map
                    (fun tc => ABlock.toolUse tc.id tc.name tc.input) }
              :: convertMessages jsonOk true c rest := by
          simp [convertMessages, hr, assistantBlocks, ht]
        rw [hsimp] at hb
        rw [cachedFlags_cons] at hb
        simp [textFlag] at hb
        rcases hb with hb | hb
        · exact hb
        · exact ih _ b hb
    | tool =>
      simp only [convertMessages, hr] at hb
      rw [cachedFlags_cons] at hb
      simp only [filterMap_textFlag_toolResult, List.nil_append] at hb
      exact ih _ b hb
    | system =>
      simp only [convertMessages, hr] at hb
      exact ih _ b hb

/-- C8 counterexample: for a history of three user messages a, b, c
(oldest first, as `Messages.List`/`NewMessage` build it) the conversion
marks the FIRST two text blocks and leaves the third, most recent one
unmarked: the markings are [true, true, false], so the two marked blocks
are not the most recent such blocks, contrary to the claim. -/
theorem cache_hint_recency_counterexample :
    cachedFlags (convertMessages (fun _ => true) false 0
      [⟨Role.user, "a", [], []⟩, ⟨Role.user, "b", [], []⟩, ⟨Role.user, "c", [], []⟩])
      = [true, true, false] := by
  decide

/-- C8 (amended): in every converted history at most two user/assistant
text blocks carry the ephemeral cache hint; the marked blocks are the
earliest such blocks of the history (block i is marked exactly when
i < 2), not the most recent; and with the disable-cache option no text
block carries the hint. -/
theorem cache_hint_marking (jsonOk : String → Bool) (msgs : List GoMessage) :
    (cachedFlags (convertMessages jsonOk false 0 msgs)).count true ≤ 2 ∧
    (∀ i, (cachedFlags (convertMessages jsonOk false 0 msgs)).getD i false
      = decide (i < (cachedFlags (convertMessages jsonOk false 0 msgs)).length ∧ i < 2)) ∧
    (∀ b, b ∈ cachedFlags (convertMessages jsonOk true 0 msgs) → b = false) := by
  refine ⟨?_, ?_, ?_⟩
  · rw [cachedFlags_convert]
    have h := expectedFlags_count (eligibleTextCount msgs) 0
    omega
  · intro i
    rw [cachedFlags_convert, expectedFlags_getD, expectedFlags_length]
    by_cases h : i < eligibleTextCount msgs ∧ 0 + i < 2
    · rw [decide_eq_true h, Eq.comm, decide_eq_true (by omega)]
    · rw [decide_eq_false h, Eq.comm, decide_eq_false (by omega)]
  · exact fun b hb => cachedFlags_disable jsonOk msgs 0 b hb

/-- C9 counterexample: with distinct big and little models configured, a
run on a session that already has a message (titled or not) launches no
title job at all, and when the job does launch (empty history) it uses the
models.big API model, not the cheap models.little one, refuting both the
trigger and the model of the claim. -/
theorem title_job_counterexample :
    maybeTitleJob ⟨"claude-3.7-sonnet", "claude-3-haiku"⟩
      [⟨Role.user, "hi", [], []⟩] "hi" = none ∧
    (maybeTitleJob ⟨"claude-3.7-sonnet", "claude-3-haiku"⟩ [] "hi").map (fun j => j.apiModel)
      = some "claude-3-7-sonnet-latest" ∧
    (List.lookup "claude-3-haiku" supportedModelsAPI).getD "" = "claude-3-haiku-latest" ∧
    ("claude-3-7-sonnet-latest" : String) ≠ "claude-3-haiku-latest" := by
  refine ⟨rfl, by decide, by decide, by decide⟩

/-- C9 (amended): on every Run whose session has no messages yet (the
source keys the side-job on the message count, not on the title), one
detached title task with a 30-second timeout is launched; it carries the
title system prompt, max-tokens 5000, the user text, and the API model of
the configured models.big; a provider failure leaves the session
unchanged (it is only logged), while a success sets the title to the
concatenated text blocks of the response. -/
theorem title_job_behavior
    (cfg : ModelsConfig) (messages : List GoMessage) (content : String)
    (sess : Session)
    (hempty : messages = []) :
    (∃ job : TitleRequest,
      maybeTitleJob cfg messages content = some job ∧
      job.timeoutSeconds = 30 ∧
      job.systemPrompt = titleSystemMessage ∧
      job.maxTokens = 5000 ∧
      job.apiModel = (List.lookup cfg.modelsBig supportedModelsAPI).getD "" ∧
      job.userMessage = content) ∧
    (∀ e, applyTitleOutcome sess (Except.error e) = sess) ∧
    (∀ blocks, applyTitleOutcome sess (Except.ok blocks)
      = { sess with title := blocks.foldl (fun a b => a ++ b) "" }) := by
  subst hempty
  exact ⟨⟨_, rfl, rfl, rfl, rfl, rfl, rfl⟩, fun e => rfl, fun blocks => rfl⟩

/-- C9 witness for the amended claim at a concrete configuration. -/
theorem title_job_behavior_witness :
    (∃ job : TitleRequest,
      maybeTitleJob ⟨"claude-3.7-sonnet", "claude-3-haiku"⟩ [] "hello" = some job ∧
      job.timeoutSeconds = 30 ∧
      job.systemPrompt = titleSystemMessage ∧
      job.maxTokens = 5000 ∧
      job.apiModel = (List.lookup "claude-3.7-sonnet" supportedModelsAPI).getD "" ∧
      job.userMessage = "hello") ∧
    (∀ e, applyTitleOutcome ⟨"s1", ""⟩ (Except.error e) = ⟨"s1", ""⟩) ∧
    (∀ blocks, applyTitleOutcome ⟨"s1", ""⟩ (Except.ok blocks)
      = { id := "s1", title := blocks.foldl (fun a b => a ++ b) "" }) :=
  title_job_behavior ⟨"claude-3.7-sonnet", "claude-3-haiku"⟩ [] "hello" ⟨"s1", ""⟩ rfl

end Termai
